import Mathlib

/-!
Shallow embedding of the `svg_minimal` Rust crate (`src/lib.rs`) in Lean 4,
together with theorems settling the specification claims.

The crate is a pure string builder: a `Path` accumulates pre-rendered rule
fragments plus styling, and a `MinSVG` document wraps a list of paths.
Machine integers (`usize`, `u8`) only ever flow into decimal formatting, so
they are embedded as `Nat`; `Vec<String>` becomes `List String`.
-/

namespace SvgMinimal

/-- Rust `enum Color` from `src/lib.rs`: five named variants plus an
RGB triple of `u8` channels (embedded as `Nat`; channels are only formatted,
never arithmetically combined). -/
inductive Color where
  | none
  | black
  | blue
  | green
  | red
  | rgb (r g b : Nat)
deriving DecidableEq, Repr

/-- Rust `struct Path`: ordered rule fragments plus styling fields. -/
structure Path where
  rules : List String
  stroke : Color
  stroke_width : Nat
  fill : Color
deriving DecidableEq, Repr

/-- Rust `Path::new()`. -/
def Path.new : Path :=
  { rules := [], stroke := Color.none, stroke_width := 0, fill := Color.none }

/-- Rust `Path::set_stroke_color`. -/
def Path.set_stroke_color (p : Path) (c : Color) : Path :=
  { p with stroke := c }

/-- Rust `Path::set_stroke_width`. -/
def Path.set_stroke_width (p : Path) (w : Nat) : Path :=
  { p with stroke_width := w }

/-- Rust `Path::set_fill_color`. -/
def Path.set_fill_color (p : Path) (c : Color) : Path :=
  { p with fill := c }

/-- Rust `Path::move_to([x,y])`: pushes `format!("M {} {} ", x, y)`. -/
def Path.move_to (p : Path) (x y : Nat) : Path :=
  { p with rules := p.rules ++ ["M " ++ toString x ++ " " ++ toString y ++ " "] }

/-- Rust `Path::line_to([x,y])`: pushes `format!("L {} {} ", x, y)`. -/
def Path.line_to (p : Path) (x y : Nat) : Path :=
  { p with rules := p.rules ++ ["L " ++ toString x ++ " " ++ toString y ++ " "] }

/-- Rust `Path::bezier([x1,y1,x2,y2,x,y])`:
pushes `format!("C {} {}, {} {}, {} {} ", ...)`. -/
def Path.bezier (p : Path) (x1 y1 x2 y2 x y : Nat) : Path :=
  { p with rules := p.rules ++
      ["C " ++ toString x1 ++ " " ++ toString y1 ++ ", " ++
        toString x2 ++ " " ++ toString y2 ++ ", " ++
        toString x ++ " " ++ toString y ++ " "] }

/-- Rust `Path::close_path()`: pushes `"Z "`. -/
def Path.close_path (p : Path) : Path :=
  { p with rules := p.rules ++ ["Z "] }

/-- Rust `Path::undo()`: `self.rules.pop()` — removes the last element when there
is one, does nothing on an empty vector. -/
def Path.undo (p : Path) : Path :=
  { p with rules := p.rules.dropLast }

/-- Rust `Path::add_rule_raw(rule)`: pushes the caller's string verbatim. -/
def Path.add_rule_raw (p : Path) (rule : String) : Path :=
  { p with rules := p.rules ++ [rule] }

/-- The `for rule in &self.rules { path.push_str(&rule) }` loop of
`Path::create` / `Path::create_raw`: concatenation in order. -/
def rulesConcat : List String → String
  | [] => ""
  | r :: rs => r ++ rulesConcat rs

/-- The `match &self.stroke` block of `Path::create`: what is pushed after
`"<path d=\"...\" stroke=\""` (each branch ends with `"\" "`). -/
def strokeBranch : Color → String
  | Color.none => "none\" "
  | Color.black => "black\" "
  | Color.blue => "blue\" "
  | Color.green => "green\" "
  | Color.red => "red\" "
  | Color.rgb r g b =>
      "rgb(" ++ toString r ++ "," ++ toString g ++ "," ++ toString b ++ ")\" "

/-- The `match &self.fill` block of `Path::create`: what is pushed after
`"stroke-width=\"{w}\" fill=\""` (each branch ends with `"\" />"`). -/
def fillBranch : Color → String
  | Color.none => "none\" />"
  | Color.black => "black\" />"
  | Color.blue => "blue\" />"
  | Color.green => "green\" />"
  | Color.red => "red\" />"
  | Color.rgb r g b =>
      "rgb(" ++ toString r ++ "," ++ toString g ++ "," ++ toString b ++ ")\" />"

/-- Rust `Path::create()`: the full `<path ... />` element, assembled by the same
sequence of `push_str` calls as the source. -/
def Path.create (p : Path) : String :=
  "<path d=\"" ++ rulesConcat p.rules ++
    "\" stroke=\"" ++ strokeBranch p.stroke ++
    "stroke-width=\"" ++ toString p.stroke_width ++ "\" fill=\"" ++
    fillBranch p.fill

/-- Rust `Path::create_raw()`: just the concatenated rules. -/
def Path.create_raw (p : Path) : String :=
  rulesConcat p.rules

/-- Rust `struct MinSVG`. The `viewbox: [usize;4]` array is embedded with a
named field per index: 0 = min-x, 1 = min-y, 2 = width, 3 = height. -/
structure ViewBox where
  minX : Nat
  minY : Nat
  width : Nat
  height : Nat
deriving DecidableEq, Repr

/-- Rust `struct MinSVG`: view box, optional namespace override, paths in
append order, background color. -/
structure MinSVG where
  viewbox : ViewBox
  xmlns : Option String
  paths : List Path
  background : Color
deriving DecidableEq, Repr

/-- Rust `MinSVG::new(viewbox)`. -/
def MinSVG.new (vb : ViewBox) : MinSVG :=
  { viewbox := vb, xmlns := Option.none, paths := [], background := Color.none }

/-- Rust `MinSVG::set_xmlns`. -/
def MinSVG.set_xmlns (s : MinSVG) (x : String) : MinSVG :=
  { s with xmlns := some x }

/-- Rust `MinSVG::set_background_color`. -/
def MinSVG.set_background_color (s : MinSVG) (c : Color) : MinSVG :=
  { s with background := c }

/-- Rust `MinSVG::add_path`: `self.paths.push(path)`. -/
def MinSVG.add_path (s : MinSVG) (p : Path) : MinSVG :=
  { s with paths := s.paths ++ [p] }

/-- The `match &self.xmlns` block opening `MinSVG::create`: the
`<svg viewBox=... xmlns=...>` tag, with the w3 literal when no override is
set. -/
def svgOpenTag (vb : ViewBox) : Option String → String
  | Option.none =>
      "<svg viewBox=\"" ++ toString vb.minX ++ " " ++ toString vb.minY ++ " " ++
        toString vb.width ++ " " ++ toString vb.height ++
        "\" xmlns=\"http://www.w3.org/2000/svg\">"
  | some xmlns =>
      "<svg viewBox=\"" ++ toString vb.minX ++ " " ++ toString vb.minY ++ " " ++
        toString vb.width ++ " " ++ toString vb.height ++
        "\" xmlns=\"" ++ xmlns ++ "\">"

/-- The `match &self.background` block, textually identical in
`MinSVG::create` and `MinSVG::create_raw`: the background `<rect>` (empty
string for `Color::None`, which pushes nothing). -/
def backgroundBranch (vb : ViewBox) : Color → String
  | Color.none => ""
  | Color.black =>
      "<rect width=\"" ++ toString vb.width ++ "\" height=\"" ++
        toString vb.height ++ "\" style=\"fill:black\" />"
  | Color.blue =>
      "<rect width=\"" ++ toString vb.width ++ "\" height=\"" ++
        toString vb.height ++ "\" style=\"fill:blue\" />"
  | Color.green =>
      "<rect width=\"" ++ toString vb.width ++ "\" height=\"" ++
        toString vb.height ++ "\" style=\"fill:green\" />"
  | Color.red =>
      "<rect width=\"" ++ toString vb.width ++ "\" height=\"" ++
        toString vb.height ++ "\" style=\"fill:red\" />"
  | Color.rgb r g b =>
      "<rect width=\"" ++ toString vb.width ++ "\" height=\"" ++
        toString vb.height ++ "\" style=\"fill:rgb(" ++ toString r ++ "," ++
        toString g ++ "," ++ toString b ++ ")\" />"

/-- The `for path in &mut self.paths { svg.push_str(&*path.create()) }` loop:
each path's full `create()` output, in order. -/
def pathsConcat : List Path → String
  | [] => ""
  | p :: ps => p.create ++ pathsConcat ps

/-- Rust `MinSVG::create()`: open tag, background match, paths loop, closing tag. -/
def MinSVG.create (s : MinSVG) : String :=
  svgOpenTag s.viewbox s.xmlns ++ backgroundBranch s.viewbox s.background ++
    pathsConcat s.paths ++ "</svg>"

/-- Rust `MinSVG::create_raw()`: same body as `create` but without the opening
`<svg ...>` tag; the closing `</svg>` is still pushed. -/
def MinSVG.create_raw (s : MinSVG) : String :=
  backgroundBranch s.viewbox s.background ++ pathsConcat s.paths ++ "</svg>"

/-- The render-as-attribute-value function of spec §4.1, written from the
spec's words (`None → "none"`, named colors → lowercase name,
`RGB(r,g,b) → "rgb(r,g,b)"` decimal, comma-separated, no spaces); used to
compare the source's inlined match blocks against the spec. -/
def colorAttrSpec : Color → String
  | Color.none => "none"
  | Color.black => "black"
  | Color.blue => "blue"
  | Color.green => "green"
  | Color.red => "red"
  | Color.rgb r g b =>
      "rgb(" ++ toString r ++ "," ++ toString g ++ "," ++ toString b ++ ")"

/-- Concatenating rule lists concatenates their rendered strings. -/
theorem rulesConcat_append (a b : List String) :
    rulesConcat (a ++ b) = rulesConcat a ++ rulesConcat b := by
  induction a with
  | nil => simp [rulesConcat]
  | cons r rs ih => simp [rulesConcat, ih, String.append_assoc]

/-- Concatenating path lists concatenates their serialized outputs. -/
theorem pathsConcat_append (a b : List Path) :
    pathsConcat (a ++ b) = pathsConcat a ++ pathsConcat b := by
  induction a with
  | nil => simp [pathsConcat]
  | cons p ps ih => simp [pathsConcat, ih, String.append_assoc]

/-- C1: for every `Path`, `create` yields exactly the template
`<path d="rules" stroke="attr" stroke-width="w" fill="attr" />`, the rules
joined in insertion order with no added separator and both color attributes
rendered by the §4.1 mapping; in particular the fresh path after
`move_to 0 0` and `line_to 100 100` serializes to the literal test string. -/
theorem c1_path_serialize_format :
    (∀ p : Path, p.create =
      "<path d=\"" ++ rulesConcat p.rules ++ "\" stroke=\"" ++
        colorAttrSpec p.stroke ++ "\" stroke-width=\"" ++
        toString p.stroke_width ++ "\" fill=\"" ++ colorAttrSpec p.fill ++
        "\" />") ∧
    ((Path.new.move_to 0 0).line_to 100 100).create =
      "<path d=\"M 0 0 L 100 100 \" stroke=\"none\" stroke-width=\"0\" fill=\"none\" />" := by
  constructor
  · intro p
    cases hs : p.stroke <;> cases hf : p.fill <;>
      simp [Path.create, strokeBranch, fillBranch, colorAttrSpec, hs, hf,
        String.append_assoc]
  · rfl

/-- Merging the split literal `"fill:" ++ "rgb("` back into the source's
single `"fill:rgb("` literal. -/
theorem style_fill_rgb_merge (x : String) :
    "\" style=\"fill:" ++ ("rgb(" ++ x) = "\" style=\"fill:rgb(" ++ x := by
  rw [← String.append_assoc]
  exact congrArg (fun s => s ++ x) (by decide)

/-- C2: for every `MinSVG`, `create` yields exactly the template
`<svg viewBox="minX minY width height" xmlns="ns">` (namespace = the
override when set, else the w3 literal), then — only when the background is
not `Color.none` — the `<rect>` using the view box's width and height and
the §4.1 color rendering, then each path's `create` output in append order,
then `</svg>`; in particular the literal scenario-4 document serializes to
the literal test string. -/
theorem c2_document_serialize_format :
    (∀ s : MinSVG, s.create =
      "<svg viewBox=\"" ++ toString s.viewbox.minX ++ " " ++
        toString s.viewbox.minY ++ " " ++ toString s.viewbox.width ++ " " ++
        toString s.viewbox.height ++ "\" xmlns=\"" ++
        s.xmlns.getD "http://www.w3.org/2000/svg" ++ "\">" ++
        ((if s.background = Color.none then ""
          else "<rect width=\"" ++ toString s.viewbox.width ++
            "\" height=\"" ++ toString s.viewbox.height ++
            "\" style=\"fill:" ++ colorAttrSpec s.background ++ "\" />") ++
          (pathsConcat s.paths ++ "</svg>"))) ∧
    (((MinSVG.new ⟨0, 0, 500, 500⟩).add_path
        ((((((((Path.new.set_stroke_color Color.black).set_fill_color
          Color.black).set_stroke_width 3).move_to 0 0).line_to 0
          50).line_to 450 500).line_to 500 500).line_to 0
          0)).set_background_color Color.green).create =
      "<svg viewBox=\"0 0 500 500\" xmlns=\"http://www.w3.org/2000/svg\"><rect width=\"500\" height=\"500\" style=\"fill:green\" /><path d=\"M 0 0 L 0 50 L 450 500 L 500 500 L 0 0 \" stroke=\"black\" stroke-width=\"3\" fill=\"black\" /></svg>" := by
  constructor
  · intro s
    cases hx : s.xmlns <;> cases hb : s.background <;>
      simp [MinSVG.create, svgOpenTag, backgroundBranch, colorAttrSpec, hx,
        hb, String.append_assoc, style_fill_rgb_merge]
  · rfl

/-- C3: for every `MinSVG` state, `create_raw` is `create` with exactly the
opening `<svg ...>` tag removed: it still emits the background branch, the
paths in order and the literal closing `</svg>`; in particular the literal
scenario-3 document raw-serializes to the literal test string. -/
theorem c3_document_raw_omits_only_open_tag :
    (∀ s : MinSVG,
      s.create = svgOpenTag s.viewbox s.xmlns ++ s.create_raw ∧
      s.create_raw = backgroundBranch s.viewbox s.background ++
        (pathsConcat s.paths ++ "</svg>")) ∧
    (((MinSVG.new ⟨0, 0, 100, 100⟩).set_background_color
        (Color.rgb 0 0 0)).add_path
        (Path.new.set_stroke_color (Color.rgb 10 100 50))).create_raw =
      "<rect width=\"100\" height=\"100\" style=\"fill:rgb(0,0,0)\" /><path d=\"\" stroke=\"rgb(10,100,50)\" stroke-width=\"0\" fill=\"none\" /></svg>" := by
  refine ⟨fun s => ⟨?_, ?_⟩, rfl⟩
  · simp [MinSVG.create, MinSVG.create_raw, String.append_assoc]
  · simp [MinSVG.create_raw, String.append_assoc]

/-- C4: the §4.1 attribute rendering (`none`, lowercase names,
`rgb(r,g,b)` decimal comma-separated) is total over the closed variant set
and is exactly what the source's three inlined `match` blocks emit: the
stroke block is the rendering plus `" `, the fill block the rendering plus
`" />`, and the background block a `<rect>` styled with the rendering
whenever the color is not `Color.none`. -/
theorem c4_color_attribute_rendering :
    ∀ c : Color,
      strokeBranch c = colorAttrSpec c ++ "\" " ∧
      fillBranch c = colorAttrSpec c ++ "\" />" ∧
      ∀ vb : ViewBox, backgroundBranch vb c =
        if c = Color.none then ""
        else "<rect width=\"" ++ toString vb.width ++ "\" height=\"" ++
          toString vb.height ++ "\" style=\"fill:" ++ colorAttrSpec c ++
          "\" />" := by
  intro c
  cases c <;>
    exact ⟨by simp [strokeBranch, colorAttrSpec, String.append_assoc],
      by simp [fillBranch, colorAttrSpec, String.append_assoc],
      fun vb => by
        simp [backgroundBranch, colorAttrSpec, String.append_assoc,
          style_fill_rgb_merge]⟩

/-- C5: each rule-appending operation appends exactly its canonical fragment
at the end of the rule sequence and changes nothing else (`M x y `,
`L x y `, `C x1 y1, x2 y2, x y `, the literal `Z `, and the verbatim raw
rule); consequently `create_raw` grows by exactly that fragment. -/
theorem c5_rule_append_ops :
    ∀ (p : Path) (x y x1 y1 x2 y2 : Nat) (t : String),
      p.move_to x y =
        { p with rules :=
            p.rules ++ ["M " ++ toString x ++ " " ++ toString y ++ " "] } ∧
      p.line_to x y =
        { p with rules :=
            p.rules ++ ["L " ++ toString x ++ " " ++ toString y ++ " "] } ∧
      p.bezier x1 y1 x2 y2 x y =
        { p with rules := p.rules ++
            ["C " ++ toString x1 ++ " " ++ toString y1 ++ ", " ++
              toString x2 ++ " " ++ toString y2 ++ ", " ++
              toString x ++ " " ++ toString y ++ " "] } ∧
      p.close_path = { p with rules := p.rules ++ ["Z "] } ∧
      p.add_rule_raw t = { p with rules := p.rules ++ [t] } ∧
      (p.add_rule_raw t).create_raw = p.create_raw ++ t ∧
      (p.move_to x y).create_raw =
        p.create_raw ++ ("M " ++ toString x ++ " " ++ toString y ++ " ") := by
  intro p x y x1 y1 x2 y2 t
  refine ⟨rfl, rfl, rfl, rfl, rfl, ?_, ?_⟩ <;>
    simp [Path.create_raw, Path.add_rule_raw, Path.move_to, rulesConcat_append,
      rulesConcat, String.append_assoc]

/-- C6: `undo` removes exactly the most recently appended rule, leaving all
earlier rules and all styling fields unchanged, and is a no-op (not an
error) on an empty rule sequence, so `create` before and after agree. -/
theorem c6_undo_pops_last_rule (p : Path) :
    (∀ rs r, p.rules = rs ++ [r] → p.undo = { p with rules := rs }) ∧
    (p.rules = [] → p.undo = p ∧ p.undo.create = p.create) := by
  constructor
  · intro rs r h
    simp [Path.undo, h]
  · intro h
    have hp : p.undo = p := by
      cases p
      simp_all [Path.undo]
    exact ⟨hp, by rw [hp]⟩

/-- Witness for C6 at concrete inputs: undoing the single rule of
`move_to 1 2` restores the fresh path, and `undo` on the fresh (empty)
path changes nothing, including its serialization. -/
theorem c6_undo_pops_last_rule_witness :
    (Path.new.move_to 1 2).undo = Path.new ∧ Path.new.undo = Path.new ∧
      Path.new.undo.create = Path.new.create := by
  refine ⟨?_, ((c6_undo_pops_last_rule Path.new).2 rfl).1,
    ((c6_undo_pops_last_rule Path.new).2 rfl).2⟩
  have h := (c6_undo_pops_last_rule (Path.new.move_to 1 2)).1 [] "M 1 2 "
    (by decide)
  exact h.trans (by decide)

/-- C7: `create_raw` is exactly the concatenation of the rule fragments in
insertion order, with no wrapper and no styling attributes, and it is
exactly the string standing between `<path d="` and the closing quote of
the `d` attribute in the same path's `create` output. -/
theorem c7_path_raw_is_d_value (p : Path) :
    p.create_raw = rulesConcat p.rules ∧
    p.create = "<path d=\"" ++ p.create_raw ++ "\" stroke=\"" ++
      colorAttrSpec p.stroke ++ "\" stroke-width=\"" ++
      toString p.stroke_width ++ "\" fill=\"" ++ colorAttrSpec p.fill ++
      "\" />" := by
  refine ⟨rfl, ?_⟩
  cases hs : p.stroke <;> cases hf : p.fill <;>
    simp [Path.create, Path.create_raw, strokeBranch, fillBranch,
      colorAttrSpec, hs, hf, String.append_assoc]

/-- C9: whenever the path list splits as `l1 ++ P1 :: l2 ++ P2 :: l3`, both
serializations are literally `... ++ P1.create ++ ... ++ P2.create ++ ...`
with the background branch before every path block: paint order equals
append order. -/
theorem c9_paint_order (s : MinSVG) (l1 l2 l3 : List Path) (P1 P2 : Path)
    (h : s.paths = l1 ++ P1 :: (l2 ++ P2 :: l3)) :
    s.create = svgOpenTag s.viewbox s.xmlns ++
      (backgroundBranch s.viewbox s.background ++
        (pathsConcat l1 ++ (P1.create ++ (pathsConcat l2 ++
          (P2.create ++ (pathsConcat l3 ++ "</svg>")))))) ∧
    s.create_raw = backgroundBranch s.viewbox s.background ++
      (pathsConcat l1 ++ (P1.create ++ (pathsConcat l2 ++
        (P2.create ++ (pathsConcat l3 ++ "</svg>"))))) := by
  constructor <;>
    simp [MinSVG.create, MinSVG.create_raw, h, pathsConcat_append,
      pathsConcat, String.append_assoc]

/-- Witness for C9: a concrete document with two appended paths decomposes
as the theorem states. -/
theorem c9_paint_order_witness :
    (((MinSVG.new ⟨0, 0, 9, 9⟩).add_path (Path.new.move_to 1 1)).add_path
        (Path.new.move_to 2 2)).create =
      svgOpenTag ⟨0, 0, 9, 9⟩ Option.none ++
        (backgroundBranch ⟨0, 0, 9, 9⟩ Color.none ++
          (pathsConcat [] ++ ((Path.new.move_to 1 1).create ++
            (pathsConcat [] ++ ((Path.new.move_to 2 2).create ++
              (pathsConcat [] ++ "</svg>")))))) ∧
    (((MinSVG.new ⟨0, 0, 9, 9⟩).add_path (Path.new.move_to 1 1)).add_path
        (Path.new.move_to 2 2)).create_raw =
      backgroundBranch ⟨0, 0, 9, 9⟩ Color.none ++
        (pathsConcat [] ++ ((Path.new.move_to 1 1).create ++
          (pathsConcat [] ++ ((Path.new.move_to 2 2).create ++
            (pathsConcat [] ++ "</svg>"))))) :=
  c9_paint_order _ [] [] [] _ _ (by decide)

/-- State-passing translation of `Path::create(&mut self)`: the Rust body
only reads `self` (all writes go to the local `path` string), so the
receiver's final state is its initial state, returned alongside the built
string. -/
def Path.createM (p : Path) : String × Path :=
  ("<path d=\"" ++ rulesConcat p.rules ++
    "\" stroke=\"" ++ strokeBranch p.stroke ++
    "stroke-width=\"" ++ toString p.stroke_width ++ "\" fill=\"" ++
    fillBranch p.fill, p)

/-- State-passing translation of `Path::create_raw(&mut self)`: reads only. -/
def Path.create_rawM (p : Path) : String × Path :=
  (rulesConcat p.rules, p)

/-- State-passing translation of the
`for path in &mut self.paths { svg.push_str(&*path.create()) }` loop: each
element is replaced by the final receiver state of its `create` call and
the produced strings are concatenated in order. -/
def pathsLoopM : List Path → String × List Path
  | [] => ("", [])
  | p :: ps =>
      ((p.createM).1 ++ (pathsLoopM ps).1, (p.createM).2 :: (pathsLoopM ps).2)

/-- State-passing translation of `MinSVG::create(&mut self)`: the view box,
namespace and background are only read; the paths are threaded through the
loop. -/
def MinSVG.createM (s : MinSVG) : String × MinSVG :=
  (svgOpenTag s.viewbox s.xmlns ++ backgroundBranch s.viewbox s.background ++
      (pathsLoopM s.paths).1 ++ "</svg>",
    { s with paths := (pathsLoopM s.paths).2 })

/-- State-passing translation of `MinSVG::create_raw(&mut self)`. -/
def MinSVG.create_rawM (s : MinSVG) : String × MinSVG :=
  (backgroundBranch s.viewbox s.background ++ (pathsLoopM s.paths).1 ++
      "</svg>",
    { s with paths := (pathsLoopM s.paths).2 })

/-- The serialization loop returns the concatenated outputs and leaves the
path list unchanged. -/
theorem pathsLoopM_eq (l : List Path) : pathsLoopM l = (pathsConcat l, l) := by
  induction l with
  | nil => rfl
  | cons p ps ih => simp [pathsLoopM, pathsConcat, Path.createM, ih, Path.create]

/-- C10: although serialization takes a mutable receiver, it modifies no
observable builder state: the state-passing translations of all four
serializers return the receiver unchanged together with the pure output,
so repeated serialization yields byte-identical strings. -/
theorem c10_serialize_pure :
    ∀ (p : Path) (s : MinSVG),
      p.createM = (p.create, p) ∧
      p.create_rawM = (p.create_raw, p) ∧
      s.createM = (s.create, s) ∧
      s.create_rawM = (s.create_raw, s) ∧
      (((s.createM).2).createM).1 = (s.createM).1 ∧
      (((p.createM).2).createM).1 = (p.createM).1 := by
  intro p s
  have hs : s.createM = (s.create, s) := by
    simp [MinSVG.createM, MinSVG.create, pathsLoopM_eq]
  have hr : s.create_rawM = (s.create_raw, s) := by
    simp [MinSVG.create_rawM, MinSVG.create_raw, pathsLoopM_eq]
  exact ⟨rfl, rfl, hs, hr, by simp [hs], rfl⟩

/-- Rendering a decimal digit never produces the character `<`. -/
theorem digitChar_ne_lt (m : Nat) (h : m < 10) : Nat.digitChar m ≠ '<' := by
  interval_cases m <;> decide

/-- Every character `Nat.toDigitsCore` emits is either from the accumulator
or the rendering of a digit below the base. -/
theorem toDigitsCore_mem (b : Nat) (hb : 0 < b) (fuel : Nat) (n : Nat)
    (ds : List Char) (c : Char) (h : c ∈ Nat.toDigitsCore b fuel n ds) :
    c ∈ ds ∨ ∃ m, m < b ∧ c = Nat.digitChar m := by
  induction fuel generalizing n ds with
  | zero => exact Or.inl h
  | succ fuel ih =>
    unfold Nat.toDigitsCore at h
    by_cases hz : n / b = 0
    · simp only [hz, if_true] at h
      rcases List.mem_cons.mp h with h1 | h1
      · exact Or.inr ⟨n % b, Nat.mod_lt n hb, h1⟩
      · exact Or.inl h1
    · simp only [hz, if_false] at h
      rcases ih (n / b) (Nat.digitChar (n % b) :: ds) h with h1 | h1
      · rcases List.mem_cons.mp h1 with h2 | h2
        · exact Or.inr ⟨n % b, Nat.mod_lt n hb, h2⟩
        · exact Or.inl h2
      · exact Or.inr h1

/-- The decimal rendering of a natural number contains no `<`. -/
theorem toString_nat_no_lt (n : Nat) : '<' ∉ (toString n).data := by
  intro hc
  have h : '<' ∈ Nat.toDigits 10 n := hc
  rcases toDigitsCore_mem 10 (by omega) (n + 1) n [] '<' h with h1 | ⟨m, hm, hc2⟩
  · exact absurd h1 (List.not_mem_nil '<')
  · exact digitChar_ne_lt m hm hc2.symm

/-- Character lists in which every `<` is immediately followed by a
character other than `r`; such lists cannot contain the segment `<rect`. -/
def SafeLt (l : List Char) : Prop :=
  ∀ x y, l = x ++ '<' :: y → ∃ c z, y = c :: z ∧ c ≠ 'r'

/-- A list without `<` is trivially safe. -/
theorem safeLt_of_no_lt {l : List Char} (h : '<' ∉ l) : SafeLt l := by
  intro x y hxy
  exact absurd (hxy ▸ List.mem_append_right x (List.mem_cons_self '<' y)) h

/-- Safety is preserved by concatenation: a `<` at the very end of the left
part is impossible since safety requires a following character. -/
theorem safeLt_append {a b : List Char} (ha : SafeLt a) (hb : SafeLt b) :
    SafeLt (a ++ b) := by
  intro x y hxy
  rcases List.append_eq_append_iff.mp hxy with ⟨t, _, hbdec⟩ | ⟨t, hadec, hd⟩
  · exact hb t y hbdec
  · cases t with
    | nil =>
      exact hb [] y (by simpa using hd.symm)
    | cons ch t2 =>
      have hd2 : '<' :: y = ch :: (t2 ++ b) := by simpa using hd
      have h1 : '<' = ch := (List.cons_eq_cons.mp hd2).1
      have h2 : y = t2 ++ b := (List.cons_eq_cons.mp hd2).2
      obtain ⟨c, z, ht, hc⟩ := ha x t2 (by rw [hadec, ← h1])
      exact ⟨c, z ++ b, by rw [h2, ht]; simp, hc⟩

/-- Whether a character list starts with a character other than `r`. -/
def headNotR : List Char → Bool
  | [] => false
  | c :: _ => c != 'r'

/-- Executable check for `SafeLt` on concrete character lists. -/
def safeLtB : List Char → Bool
  | [] => true
  | a :: rest => (a != '<' || headNotR rest) && safeLtB rest

/-- Soundness of the executable safety check. -/
theorem safeLtB_sound : ∀ {l : List Char}, safeLtB l = true → SafeLt l := by
  intro l
  induction l with
  | nil =>
    intro _ x y hxy
    exact absurd hxy (by simp)
  | cons a rest ih =>
    intro h x y hxy
    simp only [safeLtB, Bool.and_eq_true] at h
    cases x with
    | nil =>
      have h1 : a = '<' := (List.cons_eq_cons.mp (by simpa using hxy)).1
      have h2 : rest = y := (List.cons_eq_cons.mp (by simpa using hxy)).2
      cases rest with
      | nil => simp [h1, headNotR] at h
      | cons c t =>
        refine ⟨c, t, h2.symm, ?_⟩
        have h3 := h.1
        rw [h1] at h3
        simp [headNotR] at h3
        exact h3
    | cons x0 x2 =>
      have h2 : rest = x2 ++ '<' :: y := (List.cons_eq_cons.mp (by simpa using hxy)).2
      exact ih h.2 x2 y h2

/-- A safe character list never contains the segment `<rect`. -/
theorem safeLt_no_rect {l : List Char} (h : SafeLt l) :
    ¬ ∃ u v, l = u ++ "<rect".data ++ v := by
  rintro ⟨u, v, huv⟩
  have hdata : "<rect".data = ['<', 'r', 'e', 'c', 't'] := rfl
  obtain ⟨c, z, hy, hc⟩ := h u ('r' :: 'e' :: 'c' :: 't' :: v) (by
    rw [huv, hdata]; simp)
  exact hc (List.cons_eq_cons.mp hy).1.symm

/-- Absence of `<` is preserved by string concatenation. -/
theorem no_lt_append {s t : String} (hs : '<' ∉ s.data) (ht : '<' ∉ t.data) :
    '<' ∉ (s ++ t).data := by
  rw [String.data_append]
  intro hm
  rcases List.mem_append.mp hm with h | h
  · exact hs h
  · exact ht h

/-- Safety at the string level is preserved by concatenation. -/
theorem safeLt_str_append {s t : String} (hs : SafeLt s.data)
    (ht : SafeLt t.data) : SafeLt (s ++ t).data := by
  rw [String.data_append]
  exact safeLt_append hs ht

/-- Concatenated rules contain no `<` when no individual rule does. -/
theorem no_lt_rulesConcat {rs : List String} (h : ∀ r ∈ rs, '<' ∉ r.data) :
    '<' ∉ (rulesConcat rs).data := by
  induction rs with
  | nil => decide
  | cons r rs ih =>
    simp only [rulesConcat]
    exact no_lt_append (h r (List.mem_cons_self r rs))
      (ih fun r2 hr2 => h r2 (List.mem_cons_of_mem r hr2))

/-- The stroke match block never emits `<`. -/
theorem no_lt_strokeBranch (c : Color) : '<' ∉ (strokeBranch c).data := by
  cases c with
  | rgb r g b =>
    simp only [strokeBranch]
    exact no_lt_append (no_lt_append (no_lt_append (no_lt_append (no_lt_append
      (no_lt_append (by decide) (toString_nat_no_lt r)) (by decide))
      (toString_nat_no_lt g)) (by decide)) (toString_nat_no_lt b)) (by decide)
  | none => decide
  | black => decide
  | blue => decide
  | green => decide
  | red => decide

/-- The fill match block never emits `<`. -/
theorem no_lt_fillBranch (c : Color) : '<' ∉ (fillBranch c).data := by
  cases c with
  | rgb r g b =>
    simp only [fillBranch]
    exact no_lt_append (no_lt_append (no_lt_append (no_lt_append (no_lt_append
      (no_lt_append (by decide) (toString_nat_no_lt r)) (by decide))
      (toString_nat_no_lt g)) (by decide)) (toString_nat_no_lt b)) (by decide)
  | none => decide
  | black => decide
  | blue => decide
  | green => decide
  | red => decide

/-- A path whose rules contain no `<` serializes to a safe string: its only
`<` characters open `<path`. -/
theorem safeLt_path_create {p : Path} (h : ∀ r ∈ p.rules, '<' ∉ r.data) :
    SafeLt (p.create).data := by
  unfold Path.create
  refine safeLt_str_append (safeLt_str_append (safeLt_str_append
    (safeLt_str_append (safeLt_str_append (safeLt_str_append
      (safeLt_str_append ?_ ?_) ?_) ?_) ?_) ?_) ?_) ?_
  · exact safeLtB_sound (by decide)
  · exact safeLt_of_no_lt (no_lt_rulesConcat h)
  · exact safeLt_of_no_lt (by decide)
  · exact safeLt_of_no_lt (no_lt_strokeBranch p.stroke)
  · exact safeLt_of_no_lt (by decide)
  · exact safeLt_of_no_lt (toString_nat_no_lt p.stroke_width)
  · exact safeLt_of_no_lt (by decide)
  · exact safeLt_of_no_lt (no_lt_fillBranch p.fill)

/-- The concatenation of safe path outputs is safe. -/
theorem safeLt_pathsConcat {l : List Path}
    (h : ∀ p ∈ l, ∀ r ∈ p.rules, '<' ∉ r.data) :
    SafeLt (pathsConcat l).data := by
  induction l with
  | nil => exact safeLt_of_no_lt (by decide)
  | cons p ps ih =>
    simp only [pathsConcat]
    exact safeLt_str_append (safeLt_path_create (h p (List.mem_cons_self p ps)))
      (ih fun q hq => h q (List.mem_cons_of_mem p hq))

/-- The opening tag is safe when the namespace override (if any) contains
no `<`: its only `<` opens `<svg`. -/
theorem safeLt_svgOpenTag {vb : ViewBox} {xo : Option String}
    (hx : ∀ x, xo = some x → '<' ∉ x.data) :
    SafeLt (svgOpenTag vb xo).data := by
  cases xo with
  | none =>
    simp only [svgOpenTag]
    refine safeLt_str_append (safeLt_str_append (safeLt_str_append
      (safeLt_str_append (safeLt_str_append (safeLt_str_append
        (safeLt_str_append (safeLt_str_append ?_ ?_) ?_) ?_) ?_) ?_) ?_) ?_) ?_
    · exact safeLtB_sound (by decide)
    · exact safeLt_of_no_lt (toString_nat_no_lt vb.minX)
    · exact safeLt_of_no_lt (by decide)
    · exact safeLt_of_no_lt (toString_nat_no_lt vb.minY)
    · exact safeLt_of_no_lt (by decide)
    · exact safeLt_of_no_lt (toString_nat_no_lt vb.width)
    · exact safeLt_of_no_lt (by decide)
    · exact safeLt_of_no_lt (toString_nat_no_lt vb.height)
    · exact safeLt_of_no_lt (by decide)
  | some x =>
    simp only [svgOpenTag]
    refine safeLt_str_append (safeLt_str_append (safeLt_str_append
      (safeLt_str_append (safeLt_str_append (safeLt_str_append
        (safeLt_str_append (safeLt_str_append (safeLt_str_append
          (safeLt_str_append ?_ ?_) ?_) ?_) ?_) ?_) ?_) ?_) ?_) ?_) ?_
    · exact safeLtB_sound (by decide)
    · exact safeLt_of_no_lt (toString_nat_no_lt vb.minX)
    · exact safeLt_of_no_lt (by decide)
    · exact safeLt_of_no_lt (toString_nat_no_lt vb.minY)
    · exact safeLt_of_no_lt (by decide)
    · exact safeLt_of_no_lt (toString_nat_no_lt vb.width)
    · exact safeLt_of_no_lt (by decide)
    · exact safeLt_of_no_lt (toString_nat_no_lt vb.height)
    · exact safeLt_of_no_lt (by decide)
    · exact safeLt_of_no_lt (hx x rfl)
    · exact safeLt_of_no_lt (by decide)

/-- Counterexample to C8 as stated: a document with background
`Color.none` and one path carrying the raw rule `<rect` serializes to a
string that does contain the substring `<rect`. -/
theorem c8_background_none_counterexample :
    ((MinSVG.new ⟨0, 0, 1, 1⟩).add_path
      (Path.new.add_rule_raw "<rect")).background = Color.none ∧
    ∃ u v, (((MinSVG.new ⟨0, 0, 1, 1⟩).add_path
      (Path.new.add_rule_raw "<rect")).create).data =
        u ++ "<rect".data ++ v :=
  ⟨rfl,
    ("<svg viewBox=\"0 0 1 1\" xmlns=\"http://www.w3.org/2000/svg\"><path d=\"").data,
    ("\" stroke=\"none\" stroke-width=\"0\" fill=\"none\" /></svg>").data,
    by decide⟩

/-- C8 (amended): a document whose background is `Color.none` emits no
background rectangle, so — provided no caller-supplied string (path rule or
namespace override) contains the character `<` — neither `create` nor
`create_raw` output contains the substring `<rect`. -/
theorem c8_background_none_no_rect (s : MinSVG)
    (hbg : s.background = Color.none)
    (hrules : ∀ p ∈ s.paths, ∀ r ∈ p.rules, '<' ∉ r.data)
    (hx : ∀ x, s.xmlns = some x → '<' ∉ x.data) :
    (¬ ∃ u v, (s.create).data = u ++ "<rect".data ++ v) ∧
    (¬ ∃ u v, (s.create_raw).data = u ++ "<rect".data ++ v) := by
  have hps := safeLt_pathsConcat hrules
  have hopen := @safeLt_svgOpenTag s.viewbox s.xmlns hx
  have hclose : SafeLt ("</svg>" : String).data := safeLtB_sound (by decide)
  constructor
  · apply safeLt_no_rect
    unfold MinSVG.create
    rw [hbg, show backgroundBranch s.viewbox Color.none = "" from rfl]
    exact safeLt_str_append (safeLt_str_append (safeLt_str_append hopen
      (safeLt_of_no_lt (by decide))) hps) hclose
  · apply safeLt_no_rect
    unfold MinSVG.create_raw
    rw [hbg, show backgroundBranch s.viewbox Color.none = "" from rfl]
    exact safeLt_str_append (safeLt_str_append
      (safeLt_of_no_lt (by decide)) hps) hclose

/-- Witness for the amended C8 at a concrete document: background unset,
one ordinary path, no namespace override. -/
theorem c8_background_none_no_rect_witness :
    (¬ ∃ u v, (((MinSVG.new ⟨0, 0, 100, 100⟩).add_path
      (Path.new.move_to 0 0)).create).data = u ++ "<rect".data ++ v) ∧
    (¬ ∃ u v, (((MinSVG.new ⟨0, 0, 100, 100⟩).add_path
      (Path.new.move_to 0 0)).create_raw).data = u ++ "<rect".data ++ v) :=
  c8_background_none_no_rect _ rfl (by decide)
    (by intro x hx; simp [MinSVG.new, MinSVG.add_path] at hx)

end SvgMinimal
